import Mathlib

/-!
Verification of the Supabase client's schema-definition and
query-translation layer (`scripts/supabase_client.py`).

The embedding below translates the decision logic of that file into Lean:

* `coerce` — the per-field numeric coercion performed by `import_from_csv`
  (line 611: `value.replace('.', '', 1).replace('-', '', 1).isdigit()`),
  together with models `pyInt` / `pyFloat` of Python's `int()` / `float()`
  restricted to the character shapes that can reach them (ASCII digits,
  one optional sign, one optional dot — no whitespace, `+`, underscores
  or exponents ever pass the eligibility test).
* `renderColumn` / `buildCreateTable` — the per-column clause rendering
  and `CREATE TABLE` assembly of `create_table` (lines 139–173).  Missing
  `name` / `type` dictionary keys surface as `Except.error` (Python's
  `KeyError`).
* `dictSet` / `encodeQuery` / `encodeFilters` — Python-dict insertion
  semantics (assignment to an existing key overwrites in place, a new key
  is appended) and the query-parameter construction of `select` (lines
  357–373), `update` (407–409) and `delete` (441–443).
* `chunks` / `import_from_json_model` / `import_from_csv_model` — the
  batching loop `for i in range(0, len(data), batch_size)` of the CSV and
  JSON importers (lines 601–621 and 679–687).
-/

deriving instance DecidableEq for Except

namespace Supa

/-! ## Python string primitives -/

/-- Python's `s.replace(c, '', 1)` on a character list: drop the first
occurrence of `c`, if any. -/
def removeFirst (c : Char) : List Char → List Char
  | [] => []
  | x :: xs => if x = c then xs else x :: removeFirst c xs

/-- Python's `str.isdigit` (restricted to ASCII): true on a non-empty
all-digit string, false on the empty string. -/
def pyIsdigit (l : List Char) : Bool :=
  !l.isEmpty && l.all Char.isDigit

/-! ## Values a CSV field can coerce to

`floatV` carries the exact rational value of the parsed decimal literal;
the importer never computes with the float, it only forwards it, so the
rational faithfully represents which value was produced. -/

inductive PyVal where
  | intV (n : ℤ)
  | floatV (q : ℚ)
  | strV (s : String)
  deriving DecidableEq, Repr

/-- Numeric value of an ASCII digit list read in base 10. -/
def digitsVal (l : List Char) : ℕ :=
  l.foldl (fun a c => 10 * a + (c.toNat - 48)) 0

/-- Python `int(s)` on the strings reachable from the importer: an
optional leading `-` followed by at least one ASCII digit; `none` models
the `ValueError` raised on any other shape. -/
def pyInt (l : List Char) : Option ℤ :=
  match l with
  | '-' :: rest =>
      if pyIsdigit rest then some (-(digitsVal rest : ℤ)) else none
  | _ =>
      if pyIsdigit l then some (digitsVal l : ℤ) else none

/-- Python `float(s)` on an unsigned decimal literal: digits with at most
one `.` and at least one digit overall (`"5."`, `".5"`, `"1.25"`).  The
value `d₁…dₖ.e₁…eₘ` is the rational `(d₁…dₖe₁…eₘ) / 10^m`. -/
def pyFloatPos (l : List Char) : Option ℚ :=
  let intPart := l.takeWhile (fun c => !(c = '.'))
  let rest := l.dropWhile (fun c => !(c = '.'))
  match rest with
  | [] => if pyIsdigit intPart then some (mkRat (digitsVal intPart) 1) else none
  | _ :: frac =>
      if intPart.all Char.isDigit && frac.all Char.isDigit &&
          (!intPart.isEmpty || !frac.isEmpty) then
        some (mkRat (digitsVal intPart * 10 ^ frac.length + digitsVal frac)
          (10 ^ frac.length))
      else none

/-- Python `float(s)`: optional leading `-`, then an unsigned decimal
literal; `none` models `ValueError`. -/
def pyFloat (l : List Char) : Option ℚ :=
  match l with
  | '-' :: rest => (pyFloatPos rest).map Rat.neg
  | _ => pyFloatPos l

/-! ## Type coercion (`import_from_csv`, lines 611–614) -/

/-- The eligibility test of line 611:
`value and value.replace('.', '', 1).replace('-', '', 1).isdigit()` —
the string is non-empty and, after dropping the first `.` and then the
first `-` (anywhere in the string), all remaining characters are digits
and at least one remains. -/
def eligible (s : String) : Bool :=
  !s.data.isEmpty && pyIsdigit (removeFirst '-' (removeFirst '.' s.data))

/-- The coercion of lines 611–614: an eligible value containing `.` is
converted with `float(value)`, an eligible value without `.` with
`int(value)`, anything else is returned unchanged.  `Except.error s`
models the uncaught `ValueError` the conversion can raise. -/
def coerce (s : String) : Except String PyVal :=
  if eligible s then
    if s.data.contains '.' then
      match pyFloat s.data with
      | some q => .ok (.floatV q)
      | none => .error s
    else
      match pyInt s.data with
      | some n => .ok (.intV n)
      | none => .error s
  else
    .ok (.strV s)

/-- The eligibility rule as the specification words it: after removing at
most one `.` and at most one *leading* `-`, every remaining character is
a digit (and the string is non-empty).  Kept separate from `eligible`,
which is what the source computes, to compare the two. -/
def specEligible (s : String) : Bool :=
  !s.data.isEmpty &&
    pyIsdigit (removeFirst '.' (match s.data with
      | '-' :: rest => rest
      | l => l))

/-! ## DDL builder (`create_table`, lines 139–173) -/

/-- A value stored under the `defaultValue` key of a column dictionary:
the callers pass either a string or a number. -/
inductive DefaultVal where
  | dstr (s : String)
  | dint (n : ℤ)
  deriving DecidableEq, Repr

/-- Python truthiness of a `defaultValue`: line 159 guards the default
clause with `if col.get("defaultValue"):`, so an empty string or a zero
is skipped exactly like an absent key. -/
def dvTruthy : DefaultVal → Bool
  | .dstr s => !s.data.isEmpty
  | .dint n => n != 0

/-- The `f" DEFAULT {default_val}"` rendering of lines 162–167:
the exact string `"now()"` becomes `DEFAULT NOW()`; any other string
that is not all digits is single-quoted; everything else is emitted
bare. -/
def renderDefault : DefaultVal → String
  | .dstr s =>
      if s = "now()" then " DEFAULT NOW()"
      else if !(pyIsdigit s.data) then " DEFAULT '" ++ s ++ "'"
      else " DEFAULT " ++ s
  | .dint n => " DEFAULT " ++ toString n

/-- One column dictionary as `create_table` reads it.  `name` and `type`
are `Option` because Python raises `KeyError` when the key is absent;
the flag keys are read with `col.get(...)`, whose absent-key default is
falsy, so plain `Bool` fields with default `false` model them. -/
structure ColumnSpec where
  name : Option String := none
  type : Option String := none
  isPrimaryKey : Bool := false
  isIdentity : Bool := false
  isNullable : Bool := false
  defaultValue : Option DefaultVal := none
  deriving DecidableEq, Repr

/-- Python `str.upper()` (ASCII), written over the character list so it
evaluates by kernel reduction. -/
def strUpper (s : String) : String := ⟨s.data.map Char.toUpper⟩

/-- Python `str.lower()` (ASCII). -/
def strLower (s : String) : String := ⟨s.data.map Char.toLower⟩

/-- The constraint part of a column clause, lines 141–157: base text,
primary-key append, identity override, not-null append — everything of
the clause before the optional default. -/
def renderClausePre (n ty : String) (col : ColumnSpec) : String :=
  let d0 := "    \"" ++ n ++ "\" " ++ strUpper ty
  let d1 := if col.isPrimaryKey then d0 ++ " PRIMARY KEY" else d0
  let d2 :=
    if col.isIdentity then
      if strLower ty = "integer" ∨ strLower ty = "int" then
        "    \"" ++ n ++ "\" SERIAL PRIMARY KEY"
      else if strLower ty = "bigint" ∨ strLower ty = "big integer" then
        "    \"" ++ n ++ "\" BIGSERIAL PRIMARY KEY"
      else d1 ++ " GENERATED BY DEFAULT AS IDENTITY"
    else d1
  if !col.isNullable && !col.isPrimaryKey then d2 ++ " NOT NULL" else d2

/-- The per-column clause of lines 141–167, for a column whose `name`
and `type` keys are present: the constraint part, then the default
clause when `defaultValue` is present and truthy (line 159). -/
def renderClause (n ty : String) (col : ColumnSpec) : String :=
  match col.defaultValue with
  | some dv =>
      if dvTruthy dv then renderClausePre n ty col ++ renderDefault dv
      else renderClausePre n ty col
  | none => renderClausePre n ty col

/-- Rendering one column: `col["name"]` is read first, then
`col["type"]`; a missing key raises `KeyError`, modelled as
`Except.error` carrying the missing key's name. -/
def renderColumn (col : ColumnSpec) : Except String String :=
  match col.name with
  | none => .error "name"
  | some n =>
    match col.type with
    | none => .error "type"
    | some ty => .ok (renderClause n ty col)

/-- The `CREATE TABLE` assembly of lines 139–173: render each column in
order, join with `",\n"`, qualify the table name with the schema unless
it is `"public"`.  The resulting string is what `create_table` posts to
`POST /pg/query`; a `KeyError` from any column aborts before the
request. -/
def buildCreateTable (table_name schema : String) (columns : List ColumnSpec) :
    Except String String := do
  let column_defs ← columns.mapM renderColumn
  let full_table_name :=
    if schema ≠ "public" then "\"" ++ schema ++ "\".\"" ++ table_name ++ "\""
    else "\"" ++ table_name ++ "\""
  return "CREATE TABLE " ++ full_table_name ++ " (\n" ++
    String.intercalate ",\n" column_defs ++ "\n);"

/-! ## Query-parameter encoding (`select` lines 357–373, `update` 407–409,
`delete` 441–443)

Query-parameter dictionaries are modelled as association lists in
insertion order with Python-dict assignment semantics: assigning to an
existing key overwrites its value in place, a new key is appended. -/

/-- Python `d[k] = v` on a dict represented as an insertion-ordered
association list. -/
def dictSet (d : List (String × String)) (k v : String) : List (String × String) :=
  if d.any (fun kv => kv.1 = k) then
    d.map (fun kv => if kv.1 = k then (k, v) else kv)
  else d ++ [(k, v)]

/-- `params = {}; for key, value in filters.items(): params[key] = value`
(lines 407–409 and 441–443). -/
def pyDict (l : List (String × String)) : List (String × String) :=
  l.foldl (fun d kv => dictSet d kv.1 kv.2) []

/-- The arguments of `select` that shape the query parameters.  `filters`
is the caller's dict in insertion order (its keys are distinct, being
dict keys); `order` is a string or `None`; `limit` and `offset` are
integers or `None`. -/
structure QuerySpec where
  columns : String := "*"
  filters : List (String × String) := []
  order : Option String := none
  limit : Option ℤ := none
  offset : Option ℤ := none

/-- Lines 366–367: `if order: params["order"] = order` — `None` and the
empty string are both falsy and skipped. -/
def addOrder (o : Option String) (p : List (String × String)) :
    List (String × String) :=
  match o with
  | some o => if o ≠ "" then dictSet p "order" o else p
  | none => p

/-- Lines 370–373: `if limit: params["limit"] = limit` (and the same for
`offset`) — `None` and `0` are falsy and skipped; the integer reaches
the URL as its decimal string representation. -/
def addIntParam (key : String) (n : Option ℤ) (p : List (String × String)) :
    List (String × String) :=
  match n with
  | some n => if n ≠ 0 then dictSet p key (toString n) else p
  | none => p

/-- The parameter construction of `select` (lines 358–373):
start from `{"select": columns}`, copy the filters in, then add `order`,
`limit` and `offset` in that order. -/
def encodeQuery (q : QuerySpec) : List (String × String) :=
  addIntParam "offset" q.offset
    (addIntParam "limit" q.limit
      (addOrder q.order
        (q.filters.foldl (fun d kv => dictSet d kv.1 kv.2)
          [("select", q.columns)])))

/-- What a call to `update` or `delete` does before/instead of the HTTP
round-trip: either it raises a validation error (it never does in the
source) or it issues one request with the given query parameters. -/
inductive Outcome where
  | validationError
  | request (params : List (String × String))
  deriving DecidableEq, Repr

/-- `update` (lines 383–417): copy `filters` into query parameters and
issue the PATCH request.  No emptiness check exists in the source. -/
def update_outcome (filters : List (String × String)) : Outcome :=
  .request (pyDict filters)

/-- `delete` (lines 419–451): copy `filters` into query parameters and
issue the DELETE request.  No emptiness check exists in the source. -/
def delete_outcome (filters : List (String × String)) : Outcome :=
  .request (pyDict filters)

/-! ## Batch import (`import_from_csv` lines 601–621,
`import_from_json` lines 679–687) -/

/-- The slices `data[i:i+B]` for `i in range(0, len(data), B)`,
written as fuel-guarded take/drop recursion (`fuel = data.length`
suffices for any stride `B ≥ 1`; Python raises `ValueError` on `B = 0`,
which no claim exercises). -/
def chunksGo (B : ℕ) : ℕ → List α → List (List α)
  | _, [] => []
  | 0, _ :: _ => []
  | fuel + 1, a :: l => (a :: l).take B :: chunksGo B fuel ((a :: l).drop B)

/-- The batches the import loop walks over. -/
def chunks (B : ℕ) (l : List α) : List (List α) :=
  chunksGo B l.length l

/-- `import_from_json` (lines 669–687): an empty list returns 0 with no
insert call; otherwise one `insert` call per batch, returning the
accumulated `total`.  The second component lists the insert calls in
order. -/
def import_from_json_model (data : List α) (B : ℕ) : ℕ × List (List α) :=
  if data.isEmpty then (0, [])
  else
    let calls := chunks B data
    ((calls.map List.length).sum, calls)

/-- Lines 607–615: coerce every field of a row; a `ValueError` from
`int`/`float` propagates out of `import_from_csv` uncaught. -/
def convertRow (row : List (String × String)) : Except String (List (String × PyVal)) :=
  row.mapM (fun kv => (coerce kv.2).map (fun v => (kv.1, v)))

/-- `import_from_csv` (lines 593–621): batch the parsed rows, coerce each
batch, insert it.  `Except.error` is the uncaught exception aborting
the run (batches already inserted before the failing one are not rolled
back; the model reports only the abort). -/
def import_from_csv_model (data : List (List (String × String))) (B : ℕ) :
    Except String (ℕ × List (List (List (String × PyVal)))) := do
  if data.isEmpty then return (0, [])
  else
    let calls ← (chunks B data).mapM (fun batch => batch.mapM convertRow)
    return ((calls.map List.length).sum, calls)

/-- Substring occurrence on character lists (used to state that a clause
does or does not contain a given SQL fragment). -/
def occursIn (pat : List Char) : List Char → Bool
  | [] => pat.isEmpty
  | a :: rest => pat.isPrefixOf (a :: rest) || occursIn pat rest

end Supa

section CoerceExamples

example : Supa.coerce "42" = .ok (.intV 42) := by decide
example : Supa.coerce "3.14" = .ok (.floatV (mkRat 157 50)) := by decide
example : Supa.coerce "" = .ok (.strV "") := by decide
example : Supa.coerce "abc" = .ok (.strV "abc") := by decide
example : Supa.coerce "-5" = .ok (.intV (-5)) := by decide
example : Supa.coerce "12-" = .error "12-" := by decide
example : Supa.coerce "1-2" = .error "1-2" := by decide
example : Supa.eligible "12-" = true := by decide
example : Supa.specEligible "12-" = false := by decide
example : Supa.coerce "1.2.3" = .ok (.strV "1.2.3") := by decide
example : Supa.coerce "-.5" = .ok (.floatV (mkRat (-1) 2)) := by decide

end CoerceExamples

section BuilderExamples

example :
    Supa.renderColumn
      { name := some "id", type := some "bigint",
        isPrimaryKey := true, isIdentity := true } =
      .ok "    \"id\" BIGSERIAL PRIMARY KEY" := by decide

example :
    Supa.renderColumn { name := some "name", type := some "text" } =
      .ok "    \"name\" TEXT NOT NULL" := by decide

example :
    Supa.renderColumn
      { name := some "price", type := some "numeric", isNullable := true } =
      .ok "    \"price\" NUMERIC" := by decide

example :
    Supa.renderColumn
      { name := some "created_at", type := some "timestamp",
        defaultValue := some (.dstr "now()") } =
      .ok "    \"created_at\" TIMESTAMP NOT NULL DEFAULT NOW()" := by decide

example :
    Supa.buildCreateTable "products" "public"
      [{ name := some "id", type := some "bigint",
         isPrimaryKey := true, isIdentity := true },
       { name := some "name", type := some "text" }] =
      .ok "CREATE TABLE \"products\" (\n    \"id\" BIGSERIAL PRIMARY KEY,\n    \"name\" TEXT NOT NULL\n);" := by
  decide

example :
    Supa.buildCreateTable "t" "s"
      [{ name := some "a", type := some "text", isNullable := true }] =
      .ok "CREATE TABLE \"s\".\"t\" (\n    \"a\" TEXT\n);" := by decide

example :
    Supa.encodeQuery
      { columns := "*", filters := [("price", "gte.100")],
        order := some "created_at.desc", limit := some 10 } =
      [("select", "*"), ("price", "gte.100"),
       ("order", "created_at.desc"), ("limit", "10")] := by decide

example :
    Supa.chunks 2 [1, 2, 3, 4, 5] = [[1, 2], [3, 4], [5]] := by decide

example :
    Supa.import_from_json_model [1, 2, 3, 4, 5] 2 = (5, [[1, 2], [3, 4], [5]]) := by
  decide

end BuilderExamples

namespace Supa

/-! ## Lemmas about the batching loop -/

theorem chunksGo_congr (B : ℕ) (hB : 0 < B) :
    ∀ (f g : ℕ) (l : List α), l.length ≤ f → l.length ≤ g →
      chunksGo B f l = chunksGo B g l := by
  intro f
  induction f with
  | zero =>
    intro g l hf _
    have : l = [] := List.length_eq_zero.mp (Nat.le_zero.mp hf)
    subst this
    cases g <;> rfl
  | succ f ih =>
    intro g l hf hg
    cases l with
    | nil => cases g <;> rfl
    | cons a l' =>
      cases g with
      | zero => exact absurd hg (by simp)
      | succ g =>
        show (a :: l').take B :: chunksGo B f ((a :: l').drop B) =
          (a :: l').take B :: chunksGo B g ((a :: l').drop B)
        have hlen : ((a :: l').drop B).length ≤ f := by
          simp only [List.length_drop, List.length_cons] at *
          omega
        have hlen' : ((a :: l').drop B).length ≤ g := by
          simp only [List.length_drop, List.length_cons] at *
          omega
        rw [ih _ _ hlen hlen']

theorem chunks_nil (B : ℕ) : chunks B ([] : List α) = [] := rfl

theorem chunks_cons (B : ℕ) (hB : 0 < B) (a : α) (l : List α) :
    chunks B (a :: l) = (a :: l).take B :: chunks B ((a :: l).drop B) := by
  show chunksGo B (l.length + 1) (a :: l) = _
  show (a :: l).take B :: chunksGo B l.length ((a :: l).drop B) = _
  unfold chunks
  congr 1
  apply chunksGo_congr B hB
  · simp only [List.length_drop, List.length_cons]; omega
  · exact le_rfl

theorem chunks_ne_nil (B : ℕ) (hB : 0 < B) (a : α) (l : List α) :
    chunks B (a :: l) ≠ [] := by
  rw [chunks_cons B hB]
  exact List.cons_ne_nil _ _

/-- Every batch walks the data once: concatenating the batches gives the
original list back. -/
theorem chunks_flatten (B : ℕ) (hB : 0 < B) (l : List α) :
    (chunks B l).flatten = l := by
  match l with
  | [] => rfl
  | a :: l' =>
    rw [chunks_cons B hB, List.flatten_cons,
      chunks_flatten B hB ((a :: l').drop B), List.take_append_drop]
termination_by l.length
decreasing_by
  simp only [List.length_drop, List.length_cons]
  omega

/-- The number of batches is `⌈N / B⌉`. -/
theorem chunks_length (B : ℕ) (hB : 0 < B) (l : List α) :
    (chunks B l).length = (l.length + B - 1) / B := by
  match l with
  | [] =>
    simp only [chunks_nil, List.length_nil, Nat.zero_add]
    exact (Nat.div_eq_of_lt (by omega)).symm
  | a :: l' =>
    rw [chunks_cons B hB]
    have ih := chunks_length B hB ((a :: l').drop B)
    simp only [List.length_cons, List.length_drop] at ih ⊢
    rw [ih]
    rcases le_or_lt B (l'.length + 1) with hle | hlt
    · have h1 : l'.length + 1 - B + B - 1 = l'.length := by omega
      have h2 : l'.length + B = l'.length + 1 + B - 1 := by omega
      rw [h1, ← h2, Nat.add_div_right _ hB]
    · have h1 : l'.length + 1 - B = 0 := by omega
      rw [h1]
      have h2 : (0 + B - 1) / B = 0 := Nat.div_eq_of_lt (by omega)
      have h3 : (l'.length + 1 + B - 1) / B = 1 :=
        Nat.div_eq_of_lt_le (by omega) (by omega)
      omega
termination_by l.length
decreasing_by
  simp only [List.length_drop, List.length_cons]
  omega

/-- Every batch except possibly the last has exactly `B` rows. -/
theorem chunks_sizes (B : ℕ) (hB : 0 < B) (l : List α) :
    ∀ c ∈ (chunks B l).dropLast, c.length = B := by
  match l with
  | [] => intro c hc; simp [chunks_nil] at hc
  | a :: l' =>
    intro c hc
    rw [chunks_cons B hB] at hc
    rcases hrest : (a :: l').drop B with _ | ⟨b, rest⟩
    · rw [hrest, chunks_nil] at hc
      simp at hc
    · have hne : chunks B ((a :: l').drop B) ≠ [] := by
        rw [hrest]; exact chunks_ne_nil B hB b rest
      rw [List.dropLast_cons_of_ne_nil hne] at hc
      rcases List.mem_cons.mp hc with hc | hc
      · subst hc
        have hlen : B ≤ (a :: l').length := by
          by_contra hcon
          have hnil : (a :: l').drop B = [] :=
            List.drop_eq_nil_iff.mpr (by omega)
          rw [hnil] at hrest
          exact absurd hrest (by simp)
        simp only [List.length_take, List.length_cons] at *
        omega
      · exact chunks_sizes B hB ((a :: l').drop B) c hc
termination_by l.length
decreasing_by
  simp only [List.length_drop, List.length_cons]
  omega

/-- The last batch has `N mod B` rows, unless `B` divides `N`, in which
case it too is full. -/
theorem chunks_last (B : ℕ) (hB : 0 < B) (l : List α) (c : List α)
    (hc : (chunks B l).getLast? = some c) :
    c.length = if l.length % B = 0 then B else l.length % B := by
  match l with
  | [] => simp [chunks_nil] at hc
  | a :: l' =>
    rw [chunks_cons B hB] at hc
    rcases hrest : (a :: l').drop B with _ | ⟨b, rest⟩
    · rw [hrest, chunks_nil, List.getLast?_singleton, Option.some_inj] at hc
      have hlen : (a :: l').length ≤ B := by
        have := List.drop_eq_nil_iff.mp hrest
        omega
      subst hc
      simp only [List.length_take, List.length_cons] at *
      rcases Nat.lt_or_ge (l'.length + 1) B with hlt | hge
      · have hmod : (l'.length + 1) % B = l'.length + 1 := Nat.mod_eq_of_lt hlt
        rw [hmod, if_neg (by omega)]
        omega
      · have heq : l'.length + 1 = B := by omega
        rw [heq]
        simp [Nat.mod_self]
    · rw [hrest] at hc
      rcases hch : chunks B (b :: rest) with _ | ⟨c₀, cs⟩
      · exact absurd hch (chunks_ne_nil B hB b rest)
      · rw [hch, List.getLast?_cons_cons] at hc
        have ih := chunks_last B hB ((a :: l').drop B) c
          (by rw [hrest, hch]; exact hc)
        rw [ih]
        have hBle : B ≤ (a :: l').length := by
          by_contra hcon
          have hnil : (a :: l').drop B = [] :=
            List.drop_eq_nil_iff.mpr (by omega)
          rw [hnil] at hrest
          exact absurd hrest (by simp)
        simp only [List.length_drop, List.length_cons] at *
        have hmod : (l'.length + 1 - B) % B = (l'.length + 1) % B := by
          conv_rhs => rw [show l'.length + 1 = l'.length + 1 - B + B by omega]
          rw [Nat.add_mod_right]
        rw [hmod]
termination_by l.length
decreasing_by
  simp only [List.length_drop, List.length_cons]
  omega

theorem chunks_replicate_ge {x : α} {B n : ℕ} (hB : 0 < B) (h : B ≤ n) :
    chunks B (List.replicate n x) =
      List.replicate B x :: chunks B (List.replicate (n - B) x) := by
  rcases n with _ | m
  · omega
  · rw [List.replicate_succ, chunks_cons B hB, ← List.replicate_succ,
      List.take_replicate, List.drop_replicate]
    congr 1
    rw [Nat.min_eq_left h]

theorem chunks_replicate_le {x : α} {B n : ℕ} (hB : 0 < B) (h0 : 0 < n)
    (h : n ≤ B) :
    chunks B (List.replicate n x) = [List.replicate n x] := by
  rcases n with _ | m
  · omega
  · rw [List.replicate_succ, chunks_cons B hB, ← List.replicate_succ,
      List.take_replicate, List.drop_replicate, Nat.min_eq_right h]
    have hz : m + 1 - B = 0 := by omega
    rw [hz]
    rfl

/-- A successful `mapM` over `Except` succeeds pointwise, in order. -/
theorem mapM_ok_forall₂ {ε β : Type} (f : α → Except ε β) (l : List α)
    (l' : List β) (h : l.mapM f = .ok l') :
    List.Forall₂ (fun a b => f a = .ok b) l l' := by
  induction l generalizing l' with
  | nil =>
    rw [List.mapM_nil] at h
    cases h
    exact List.Forall₂.nil
  | cons a l ih =>
    rw [List.mapM_cons] at h
    rcases hfa : f a with e | b
    · rw [hfa] at h
      exact absurd h (by simp [Bind.bind, Except.bind])
    · rw [hfa] at h
      rcases hml : l.mapM f with e | bs
      · rw [hml] at h
        exact absurd h (by simp [Bind.bind, Except.bind])
      · rw [hml] at h
        simp only [Bind.bind, Except.bind, pure, Except.pure, Except.ok.injEq] at h
        subst h
        exact List.Forall₂.cons hfa (ih bs hml)

/-- Mapping a length-like function across a `Forall₂` relation whose
pairs agree on it. -/
theorem Forall₂_map_length {A B' : Type} {R : A → B' → Prop}
    {f : A → ℕ} {g : B' → ℕ} (hfg : ∀ a b, R a b → g b = f a) :
    ∀ {l1 : List A} {l2 : List B'}, List.Forall₂ R l1 l2 →
      l2.map g = l1.map f := by
  intro l1 l2 hfa
  induction hfa with
  | nil => rfl
  | cons h1 h2 ih =>
    simp only [List.map_cons, ih]
    rw [hfg _ _ h1]

/-! ## Lemmas about Python-dict assignment -/

theorem lookup_cons_eq {a : String × String} {d : List (String × String)}
    {k : String} (h : a.1 = k) : (a :: d).lookup k = some a.2 := by
  obtain ⟨k₁, v₁⟩ := a
  simp only at h
  subst h
  simp [List.lookup]

theorem lookup_cons_ne {a : String × String} {d : List (String × String)}
    {k : String} (h : a.1 ≠ k) : (a :: d).lookup k = d.lookup k := by
  obtain ⟨k₁, v₁⟩ := a
  simp only at h
  have hb : (k == k₁) = false := beq_eq_false_iff_ne.mpr (Ne.symm h)
  simp [List.lookup, hb]

theorem dictSet_cons_ne {a : String × String} {d : List (String × String)}
    {k v : String} (h : a.1 ≠ k) :
    dictSet (a :: d) k v = a :: dictSet d k v := by
  unfold dictSet
  simp only [List.any_cons, h, decide_False, Bool.false_or]
  by_cases hd : d.any (fun kv => kv.1 = k) <;> simp [hd, h]

theorem lookup_dictSet_self (d : List (String × String)) (k v : String) :
    (dictSet d k v).lookup k = some v := by
  induction d with
  | nil => simp [dictSet, List.lookup]
  | cons a d ih =>
    by_cases h : a.1 = k
    · unfold dictSet
      simp only [List.any_cons, h, decide_True, Bool.true_or, if_pos]
      rw [List.map_cons, if_pos h]
      exact lookup_cons_eq rfl
    · rw [dictSet_cons_ne h, lookup_cons_ne h, ih]

theorem lookup_map_overwrite_ne {d : List (String × String)} {k k' v : String}
    (h : k' ≠ k) :
    (d.map (fun kv => if kv.1 = k then (k, v) else kv)).lookup k' = d.lookup k' := by
  induction d with
  | nil => rfl
  | cons a d ih =>
    by_cases ha : a.1 = k
    · rw [List.map_cons, if_pos ha,
        lookup_cons_ne (show (k, v).1 ≠ k' from Ne.symm h),
        lookup_cons_ne (show a.1 ≠ k' from fun hk => h (hk.symm.trans ha)), ih]
    · rw [List.map_cons, if_neg ha]
      by_cases hk' : a.1 = k'
      · rw [lookup_cons_eq hk', lookup_cons_eq hk']
      · rw [lookup_cons_ne hk', lookup_cons_ne hk', ih]

theorem lookup_dictSet_ne (d : List (String × String)) {k k' : String}
    (v : String) (h : k' ≠ k) :
    (dictSet d k v).lookup k' = d.lookup k' := by
  unfold dictSet
  by_cases hd : d.any (fun kv => kv.1 = k)
  · rw [if_pos hd]
    exact lookup_map_overwrite_ne h
  · rw [if_neg hd]
    induction d with
    | nil =>
      have hb : (k' == k) = false := beq_eq_false_iff_ne.mpr h
      simp [List.lookup, hb]
    | cons a d ih =>
      by_cases hk' : a.1 = k'
      · rw [List.cons_append, lookup_cons_eq hk', lookup_cons_eq hk']
      · rw [List.cons_append, lookup_cons_ne hk', lookup_cons_ne hk']
        exact ih (by simp only [List.any_cons, Bool.or_eq_true] at hd; tauto)

/-- Folding dict assignments whose keys all differ from `k` leaves the
binding of `k` untouched. -/
theorem lookup_foldl_dictSet_not_mem (fs : List (String × String))
    (d : List (String × String)) (k : String)
    (h : ∀ kv ∈ fs, kv.1 ≠ k) :
    ((fs.foldl (fun d kv => dictSet d kv.1 kv.2) d).lookup k) = d.lookup k := by
  induction fs generalizing d with
  | nil => rfl
  | cons a fs ih =>
    rw [List.foldl_cons, ih _ (fun kv hkv => h kv (List.mem_cons_of_mem a hkv)),
      lookup_dictSet_ne _ _ (Ne.symm (h a (List.mem_cons_self a fs)))]

/-- Folding dict assignments binds each key to the value of its last
occurrence; with distinct keys, to its (unique) value. -/
theorem lookup_foldl_dictSet_mem (fs : List (String × String))
    (d : List (String × String)) (k v : String)
    (hnodup : (fs.map Prod.fst).Nodup) (hmem : (k, v) ∈ fs) :
    ((fs.foldl (fun d kv => dictSet d kv.1 kv.2) d).lookup k) = some v := by
  induction fs generalizing d with
  | nil => simp at hmem
  | cons a fs ih =>
    rw [List.map_cons, List.nodup_cons] at hnodup
    rcases List.mem_cons.mp hmem with hmem | hmem
    · subst hmem
      rw [List.foldl_cons]
      rw [lookup_foldl_dictSet_not_mem fs _ k
        (fun kv hkv hk =>
          hnodup.1 (by rw [← hk]; exact List.mem_map.mpr ⟨kv, hkv, rfl⟩))]
      exact lookup_dictSet_self d k v
    · rw [List.foldl_cons]
      exact ih _ hnodup.2 hmem

theorem lookup_addOrder_ne {k : String} (o : Option String)
    (p : List (String × String)) (h : k ≠ "order") :
    (addOrder o p).lookup k = p.lookup k := by
  rcases o with _ | o
  · rfl
  · simp only [addOrder]
    by_cases ho : o ≠ ""
    · rw [if_pos ho, lookup_dictSet_ne _ _ h]
    · rw [if_neg ho]

theorem lookup_addIntParam_ne {k : String} (key : String) (n : Option ℤ)
    (p : List (String × String)) (h : k ≠ key) :
    (addIntParam key n p).lookup k = p.lookup k := by
  rcases n with _ | n
  · rfl
  · simp only [addIntParam]
    by_cases hn : n ≠ 0
    · rw [if_pos hn, lookup_dictSet_ne _ _ h]
    · rw [if_neg hn]

theorem lookup_addOrder_some {o : String} (p : List (String × String))
    (h : o ≠ "") : (addOrder (some o) p).lookup "order" = some o := by
  simp only [addOrder]
  rw [if_pos h, lookup_dictSet_self]

theorem lookup_addIntParam_some (key : String) {n : ℤ}
    (p : List (String × String)) (h : n ≠ 0) :
    (addIntParam key (some n) p).lookup key = some (toString n) := by
  simp only [addIntParam]
  rw [if_pos h, lookup_dictSet_self]

/-- For a key other than `order`/`limit`/`offset`, the encoded query's
binding is decided by the filter fold alone. -/
theorem encodeQuery_lookup_other (q : QuerySpec) (k : String)
    (h1 : k ≠ "order") (h2 : k ≠ "limit") (h3 : k ≠ "offset") :
    (encodeQuery q).lookup k =
      ((q.filters.foldl (fun d kv => dictSet d kv.1 kv.2)
        [("select", q.columns)]).lookup k) := by
  unfold encodeQuery
  rw [lookup_addIntParam_ne _ _ _ h3, lookup_addIntParam_ne _ _ _ h2,
    lookup_addOrder_ne _ _ h1]

/-! ## Lemmas about the coercion heuristic -/

theorem removeFirst_of_not_mem (c : Char) (l : List Char) (h : c ∉ l) :
    removeFirst c l = l := by
  induction l with
  | nil => rfl
  | cons x xs ih =>
    by_cases hx : x = c
    · subst hx
      exact absurd (List.mem_cons_self x xs) h
    · rw [removeFirst, if_neg hx, ih (fun hc => h (List.mem_cons_of_mem x hc))]

/-- Splitting a list at the first occurrence of `c` relates `removeFirst`
to `takeWhile`/`dropWhile`. -/
theorem removeFirst_split (c : Char) (l : List Char) (h : c ∈ l) :
    ∃ pre post, l = pre ++ c :: post ∧ c ∉ pre ∧
      removeFirst c l = pre ++ post ∧
      l.takeWhile (fun x => !(x = c)) = pre ∧
      l.dropWhile (fun x => !(x = c)) = c :: post := by
  induction l with
  | nil => simp at h
  | cons x xs ih =>
    by_cases hx : x = c
    · subst hx
      refine ⟨[], xs, rfl, by simp, ?_, ?_, ?_⟩
      · rw [removeFirst, if_pos rfl]; rfl
      · simp [List.takeWhile_cons]
      · simp [List.dropWhile_cons]
    · obtain ⟨pre, post, heq, hpre, hrm, htake, hdrop⟩ :=
        ih (List.mem_of_ne_of_mem (Ne.symm hx) h)
      refine ⟨x :: pre, post, by rw [List.cons_append, heq], ?_, ?_, ?_, ?_⟩
      · intro hc
        rcases List.mem_cons.mp hc with h1 | h1
        · exact hx h1.symm
        · exact hpre h1
      · rw [removeFirst, if_neg hx, hrm]; rfl
      · simp [List.takeWhile_cons, hx, htake]
      · simp [List.dropWhile_cons, hx, hdrop]

theorem pyIsdigit_not_mem_dot {l : List Char} (h : pyIsdigit l = true) :
    '.' ∉ l := by
  intro hc
  simp only [pyIsdigit, Bool.and_eq_true, List.all_eq_true] at h
  have := h.2 '.' hc
  simp [Char.isDigit] at this

theorem pyIsdigit_not_mem_minus {l : List Char} (h : pyIsdigit l = true) :
    '-' ∉ l := by
  intro hc
  simp only [pyIsdigit, Bool.and_eq_true, List.all_eq_true] at h
  have := h.2 '-' hc
  simp [Char.isDigit] at this

theorem pyInt_of_digits {l : List Char} (h : pyIsdigit l = true) (hm : '-' ∉ l) :
    pyInt l = some ((digitsVal l : ℤ)) := by
  unfold pyInt
  split
  · rename_i rest
    exact absurd (List.mem_cons_self '-' rest) hm
  · rw [if_pos h]

theorem pyInt_of_neg {rest : List Char} (h : pyIsdigit rest = true) :
    pyInt ('-' :: rest) = some (-(digitsVal rest : ℤ)) := by
  show (if pyIsdigit rest then some (-(digitsVal rest : ℤ)) else none) = _
  rw [if_pos h]

theorem pyInt_none {l : List Char} (hm : '-' ∈ l) (hh : l.head? ≠ some '-') :
    pyInt l = none := by
  unfold pyInt
  split
  · exact absurd rfl hh
  · rw [if_neg]
    intro hdig
    exact pyIsdigit_not_mem_minus hdig hm

theorem pyFloatPos_of_dot {m : List Char} (hdot : '.' ∈ m)
    (h : pyIsdigit (removeFirst '.' m) = true) :
    ∃ q, pyFloatPos m = some q := by
  obtain ⟨pre, post, heq, hpre, hrm, htake, hdrop⟩ := removeFirst_split '.' m hdot
  rw [hrm] at h
  simp only [pyIsdigit, Bool.and_eq_true, List.all_eq_true] at h
  have hprd : pre.all Char.isDigit = true :=
    List.all_eq_true.mpr fun x hx => h.2 x (List.mem_append.mpr (Or.inl hx))
  have hpod : post.all Char.isDigit = true :=
    List.all_eq_true.mpr fun x hx => h.2 x (List.mem_append.mpr (Or.inr hx))
  have hne : (!pre.isEmpty || !post.isEmpty) = true := by
    rcases pre with _ | ⟨a, pre⟩
    · rcases post with _ | ⟨b, post⟩
      · simp at h
      · simp
    · simp
  simp only [pyFloatPos, htake, hdrop, hprd, hpod, hne, Bool.true_and,
    Bool.and_true, if_pos]
  exact ⟨_, rfl⟩

theorem pyFloatPos_none {m : List Char} (hdot : '.' ∈ m) (hm : '-' ∈ m) :
    pyFloatPos m = none := by
  obtain ⟨pre, post, heq, hpre, hrm, htake, hdrop⟩ := removeFirst_split '.' m hdot
  have : '-' ∈ pre ∨ '-' ∈ post := by
    rw [heq] at hm
    rcases List.mem_append.mp hm with h1 | h1
    · exact Or.inl h1
    · rcases List.mem_cons.mp h1 with h2 | h2
      · exact absurd h2 (by decide)
      · exact Or.inr h2
  have hfail : (pre.all Char.isDigit && post.all Char.isDigit) = false := by
    rcases this with h1 | h1
    · have : pre.all Char.isDigit = false := by
        rcases hall : pre.all Char.isDigit with _ | _
        · rfl
        · exact absurd (List.all_eq_true.mp hall '-' h1) (by decide)
      simp [this]
    · have : post.all Char.isDigit = false := by
        rcases hall : post.all Char.isDigit with _ | _
        · rfl
        · exact absurd (List.all_eq_true.mp hall '-' h1) (by decide)
      simp [this]
  simp only [pyFloatPos, htake, hdrop, hfail, Bool.false_and, if_neg,
    Bool.false_eq_true, not_false_eq_true]

theorem contains_iff_mem_char {l : List Char} {c : Char} :
    l.contains c = true ↔ c ∈ l := List.elem_iff

/-- An ineligible value is passed through unchanged. -/
theorem coerce_ineligible {s : String} (h : eligible s = false) :
    coerce s = .ok (.strV s) := by
  simp [coerce, h]

/-- An eligible dot-free value whose `-`, if any, is leading, converts to
an integer. -/
theorem coerce_int_ok {s : String} (he : eligible s = true)
    (hdot : s.data.contains '.' = false)
    (hm : s.data.contains '-' = false ∨ s.data.head? = some '-') :
    ∃ n : ℤ, coerce s = .ok (.intV n) := by
  have hdot' : '.' ∉ s.data := fun hc =>
    by rw [contains_iff_mem_char.mpr hc] at hdot; cases hdot
  simp only [eligible, Bool.and_eq_true] at he
  rw [removeFirst_of_not_mem '.' s.data hdot'] at he
  have he2 := he.2
  have hint : ∃ n : ℤ, pyInt s.data = some n := by
    rcases hm with hm | hm
    · have hm' : '-' ∉ s.data := fun hc =>
        by rw [contains_iff_mem_char.mpr hc] at hm; cases hm
      rw [removeFirst_of_not_mem '-' s.data hm'] at he2
      exact ⟨_, pyInt_of_digits he2 hm'⟩
    · rcases hd : s.data with _ | ⟨a, rest⟩
      · rw [hd] at hm; cases hm
      · rw [hd] at hm
        have ha : a = '-' := by
          simpa using hm
        subst ha
        rw [hd, removeFirst, if_pos rfl] at he2
        exact ⟨_, pyInt_of_neg he2⟩
  obtain ⟨n, hn⟩ := hint
  refine ⟨n, ?_⟩
  have helig : eligible s = true := by
    simp only [eligible, removeFirst_of_not_mem '.' s.data hdot', he.1, he.2,
      Bool.and_self]
  unfold coerce
  rw [if_pos helig, if_neg (by rw [hdot]; exact Bool.false_ne_true), hn]

/-- An eligible dot-free value whose `-` is not leading makes `int()`
raise: the import aborts. -/
theorem coerce_int_err {s : String} (he : eligible s = true)
    (hdot : s.data.contains '.' = false)
    (hm : s.data.contains '-' = true) (hh : s.data.head? ≠ some '-') :
    coerce s = .error s := by
  have hm' : '-' ∈ s.data := contains_iff_mem_char.mp hm
  unfold coerce
  rw [if_pos he, if_neg (by rw [hdot]; exact Bool.false_ne_true),
    pyInt_none hm' hh]

/-- An eligible dotted value whose `-`, if any, is leading, converts to a
float. -/
theorem coerce_float_ok {s : String} (he : eligible s = true)
    (hdot : s.data.contains '.' = true)
    (hm : s.data.contains '-' = false ∨ s.data.head? = some '-') :
    ∃ q : ℚ, coerce s = .ok (.floatV q) := by
  have hdot' : '.' ∈ s.data := contains_iff_mem_char.mp hdot
  simp only [eligible, Bool.and_eq_true] at he
  have he2 := he.2
  have hfloat : ∃ q : ℚ, pyFloat s.data = some q := by
    rcases hm with hm | hm
    · have hm' : '-' ∉ s.data := fun hc =>
        by rw [contains_iff_mem_char.mpr hc] at hm; cases hm
      have hmrf : '-' ∉ removeFirst '.' s.data := by
        intro hc
        obtain ⟨pre, post, heq, _, hrm, _, _⟩ := removeFirst_split '.' s.data hdot'
        rw [hrm, List.mem_append] at hc
        apply hm'
        rw [heq]
        rcases hc with hc | hc
        · exact List.mem_append.mpr (Or.inl hc)
        · exact List.mem_append.mpr (Or.inr (List.mem_cons_of_mem '.' hc))
      rw [removeFirst_of_not_mem '-' _ hmrf] at he2
      obtain ⟨q, hq⟩ := pyFloatPos_of_dot hdot' he2
      refine ⟨q, ?_⟩
      unfold pyFloat
      split
      · rename_i rest heq
        rw [heq] at hm'
        exact absurd (List.mem_cons_self '-' rest) hm'
      · exact hq
    · rcases hd : s.data with _ | ⟨a, rest⟩
      · rw [hd] at hm; cases hm
      · rw [hd] at hm
        have ha : a = '-' := by simpa using hm
        subst ha
        have hdrest : '.' ∈ rest := by
          rw [hd] at hdot'
          exact List.mem_of_ne_of_mem (by decide) hdot'
        rw [hd, removeFirst, if_neg (by decide), removeFirst, if_pos rfl] at he2
        obtain ⟨q, hq⟩ := pyFloatPos_of_dot hdrest he2
        refine ⟨Rat.neg q, ?_⟩
        show (pyFloatPos rest).map Rat.neg = _
        rw [hq]
        rfl
  obtain ⟨q, hq⟩ := hfloat
  refine ⟨q, ?_⟩
  have helig : eligible s = true := by
    simp only [eligible, he.1, he.2, Bool.and_self]
  unfold coerce
  rw [if_pos helig, if_pos hdot, hq]

/-- An eligible dotted value whose `-` is not leading makes `float()`
raise: the import aborts. -/
theorem coerce_float_err {s : String} (he : eligible s = true)
    (hdot : s.data.contains '.' = true)
    (hm : s.data.contains '-' = true) (hh : s.data.head? ≠ some '-') :
    coerce s = .error s := by
  have hdot' : '.' ∈ s.data := contains_iff_mem_char.mp hdot
  have hm' : '-' ∈ s.data := contains_iff_mem_char.mp hm
  have hnone : pyFloat s.data = none := by
    unfold pyFloat
    split
    · rename_i rest heq
      exact absurd (by rw [heq]; rfl) hh
    · exact pyFloatPos_none hdot' hm'
  unfold coerce
  rw [if_pos he, if_pos hdot, hnone]

/-! ## Lemmas about the DDL builder -/

/-- The clause a column renders to when its `name` and `type` keys are
present (and the empty string otherwise; only the first case is ever
used). -/
def clauseOf (col : ColumnSpec) : String :=
  match col.name, col.type with
  | some n, some ty => renderClause n ty col
  | _, _ => ""

theorem renderColumn_eq_clauseOf {col : ColumnSpec}
    (hn : col.name ≠ none) (ht : col.type ≠ none) :
    renderColumn col = .ok (clauseOf col) := by
  rcases h1 : col.name with _ | n
  · exact absurd h1 hn
  · rcases h2 : col.type with _ | ty
    · exact absurd h2 ht
    · simp [renderColumn, clauseOf, h1, h2]

theorem mapM_renderColumn_ok (cols : List ColumnSpec)
    (h : ∀ c ∈ cols, c.name ≠ none ∧ c.type ≠ none) :
    cols.mapM renderColumn = .ok (cols.map clauseOf) := by
  induction cols with
  | nil => rfl
  | cons c cols ih =>
    rw [List.mapM_cons,
      renderColumn_eq_clauseOf (h c (List.mem_cons_self c cols)).1
        (h c (List.mem_cons_self c cols)).2,
      ih (fun c hc => h c (List.mem_cons_of_mem _ hc)), List.map_cons]
    rfl

/-- On columns with all keys present, the builder produces exactly the
wrapped join of the per-column clauses. -/
theorem buildCreateTable_eq (t s : String) (cols : List ColumnSpec)
    (h : ∀ c ∈ cols, c.name ≠ none ∧ c.type ≠ none) :
    buildCreateTable t s cols =
      .ok ("CREATE TABLE " ++
        (if s ≠ "public" then "\"" ++ s ++ "\".\"" ++ t ++ "\""
         else "\"" ++ t ++ "\"") ++
        " (\n" ++ String.intercalate ",\n" (cols.map clauseOf) ++ "\n);") := by
  unfold buildCreateTable
  rw [mapM_renderColumn_ok cols h]
  rfl

end Supa

/-! ## Claims -/

open Supa in
/-- C1 (counterexample): calling `update` or `delete` with an empty
filters mapping does NOT fail with a `ValidationError` — the source has
no such check; both build an empty parameter mapping and issue the HTTP
request, mutating the whole table. -/
theorem c1_counterexample :
    Supa.update_outcome [] = .request [] ∧
    Supa.delete_outcome [] = .request [] ∧
    Supa.update_outcome [] ≠ .validationError ∧
    Supa.delete_outcome [] ≠ .validationError := by
  refine ⟨rfl, rfl, ?_, ?_⟩ <;> decide

open Supa in
/-- C1 (amended): `update` and `delete` never raise a validation error;
for any filters mapping — the empty one included — they issue exactly one
request whose query parameters are the filter entries, so empty filters
produce an unfiltered (full-table) mutation request. -/
theorem c1_amended_no_validation :
    (∀ fs, Supa.update_outcome fs = .request (Supa.pyDict fs)) ∧
    (∀ fs, Supa.delete_outcome fs = .request (Supa.pyDict fs)) ∧
    (∀ fs, Supa.update_outcome fs ≠ .validationError) ∧
    (∀ fs, Supa.delete_outcome fs ≠ .validationError) ∧
    Supa.update_outcome [] = .request [] ∧
    Supa.delete_outcome [] = .request [] := by
  refine ⟨fun _ => rfl, fun _ => rfl, fun fs h => ?_, fun fs h => ?_, rfl, rfl⟩
  · exact Supa.Outcome.noConfusion h
  · exact Supa.Outcome.noConfusion h

open Supa in
/-- C2 (counterexample): the claim's eligibility rule (at most one `.`
and at most one *leading* `-`) declares `"12-"` ineligible, so the claim
predicts `coerce "12-" = "12-"` unchanged; the code's test removes a `-`
anywhere, accepts `"12-"`, and the integer conversion then raises, so
the result is neither the string nor any value. -/
theorem c2_counterexample :
    Supa.specEligible "12-" = false ∧
    Supa.eligible "12-" = true ∧
    Supa.coerce "12-" ≠ .ok (.strV "12-") ∧
    Supa.coerce "12-" = .error "12-" := by
  refine ⟨by decide, by decide, by decide, by decide⟩

open Supa in
/-- C2 (amended): eligibility removes the first `.` and the first `-`
anywhere (not only leading) and then requires a non-empty all-digit
remainder.  An ineligible value is returned unchanged.  An eligible
value whose `-`, if any, is leading converts to an integer (no `.`) or a
float (with `.`); an eligible value whose `-` is not leading makes the
conversion raise.  The spec's examples hold:
`coerce "42" = 42`, `coerce "3.14" = 3.14`, `coerce "" = ""`,
`coerce "abc" = "abc"`, `coerce "-5" = -5`. -/
theorem c2_amended_coercion :
    Supa.coerce "42" = .ok (.intV 42) ∧
    Supa.coerce "3.14" = .ok (.floatV (mkRat 157 50)) ∧
    Supa.coerce "" = .ok (.strV "") ∧
    Supa.coerce "abc" = .ok (.strV "abc") ∧
    Supa.coerce "-5" = .ok (.intV (-5)) ∧
    (∀ s : String, Supa.eligible s = false → Supa.coerce s = .ok (.strV s)) ∧
    (∀ s : String, Supa.eligible s = true →
      (s.data.contains '-' = false ∨ s.data.head? = some '-') →
      (s.data.contains '.' = false → ∃ n : ℤ, Supa.coerce s = .ok (.intV n)) ∧
      (s.data.contains '.' = true → ∃ q : ℚ, Supa.coerce s = .ok (.floatV q))) ∧
    (∀ s : String, Supa.eligible s = true →
      s.data.contains '-' = true → s.data.head? ≠ some '-' →
      Supa.coerce s = .error s) := by
  refine ⟨by decide, by decide, by decide, by decide, by decide,
    fun s h => Supa.coerce_ineligible h,
    fun s he hm => ⟨fun hd => Supa.coerce_int_ok he hd hm,
      fun hd => Supa.coerce_float_ok he hd hm⟩,
    fun s he hmm hh => ?_⟩
  rcases hd : s.data.contains '.' with _ | _
  · exact Supa.coerce_int_err he hd hmm hh
  · exact Supa.coerce_float_err he hd hmm hh

open Supa in
/-- C2 (witness): the amended coercion theorem applied at the concrete
inputs `"hello world"` (ineligible, returned unchanged) and `"7-7"`
(eligible but with a non-leading `-`, so the conversion raises). -/
theorem c2_witness :
    Supa.coerce "hello world" = .ok (.strV "hello world") ∧
    Supa.coerce "7-7" = .error "7-7" := by
  constructor
  · exact c2_amended_coercion.2.2.2.2.2.1 "hello world" (by decide)
  · exact c2_amended_coercion.2.2.2.2.2.2.2 "7-7" (by decide) (by decide)
      (by decide)

open Supa in
/-- C4 (counterexample): `create_table` performs no validation at all: an
empty column list is not rejected with a `ValidationError` — it produces
a degenerate `CREATE TABLE` statement (with an empty column section)
which is then posted to the SQL endpoint. -/
theorem c4_counterexample :
    Supa.buildCreateTable "t" "public" [] =
      .ok "CREATE TABLE \"t\" (\n\n);" ∧
    ∀ e, Supa.buildCreateTable "t" "public" [] ≠ .error e := by
  refine ⟨by decide, fun e h => ?_⟩
  rw [show Supa.buildCreateTable "t" "public" [] =
    .ok "CREATE TABLE \"t\" (\n\n);" from by decide] at h
  exact Except.noConfusion h

open Supa in
/-- C4 (amended): the builder rejects nothing by itself: an empty column
list yields degenerate SQL that is still sent; a column whose dictionary
lacks the `name` (resp. `type`) key aborts with a `KeyError` for that
key — not a `ValidationError` — before any request is issued. -/
theorem c4_amended_no_validation :
    (∀ t s rest, Supa.buildCreateTable t s ({ name := none } :: rest) =
      .error "name") ∧
    (∀ t s rest n, Supa.buildCreateTable t s
      ({ name := some n, type := none } :: rest) = .error "type") ∧
    Supa.buildCreateTable "t" "public" [] =
      .ok "CREATE TABLE \"t\" (\n\n);" := by
  refine ⟨fun t s rest => ?_, fun t s rest n => ?_, by decide⟩
  · rfl
  · rfl

open Supa in
/-- C9: the eligibility test of `import_from_csv` does not guarantee the
conversion succeeds: `"12-"` and `"1-2"` pass the test (their single `-`
is removed wherever it is) but `int()` raises on them, so the import
aborts with an uncaught error instead of falling back to the string. -/
theorem c9_eligibility_no_guarantee :
    Supa.eligible "12-" = true ∧
    Supa.coerce "12-" = .error "12-" ∧
    Supa.eligible "1-2" = true ∧
    Supa.coerce "1-2" = .error "1-2" ∧
    Supa.import_from_csv_model [[("x", "12-")]] 1000 = .error "12-" := by
  refine ⟨by decide, by decide, by decide, by decide, by decide⟩

open Supa in
/-- C3 (counterexample): an identity column of integer type with
`isPrimaryKey` unset and `isNullable` unset (falsy) renders as the
auto-increment shortcut *plus* a separate `NOT NULL` — the not-null
guard of line 156 tests the flags, not the already-overridden clause —
contradicting "never additionally contains a separate not-null
constraint, regardless of the flags". -/
theorem c3_counterexample :
    Supa.renderColumn
      { name := some "id", type := some "integer", isIdentity := true } =
      .ok "    \"id\" SERIAL PRIMARY KEY NOT NULL" ∧
    ("    \"id\" SERIAL PRIMARY KEY NOT NULL" : String) ≠
      "    \"id\" SERIAL PRIMARY KEY" := by
  refine ⟨by decide, by decide⟩

open Supa in
/-- C3 (amended): for an identity column of integer family type (and no
default value), the clause is exactly the SERIAL/BIGSERIAL primary-key
shortcut, followed by `" NOT NULL"` precisely when `isPrimaryKey` is
unset and `isNullable` is falsy; no separate `PRIMARY KEY` constraint
ever survives the override. -/
theorem c3_amended_identity_clause (col : Supa.ColumnSpec) (n ty : String)
    (hn : col.name = some n) (ht : col.type = some ty)
    (hid : col.isIdentity = true)
    (hfam : Supa.strLower ty = "integer" ∨ Supa.strLower ty = "int" ∨
      Supa.strLower ty = "bigint" ∨ Supa.strLower ty = "big integer")
    (hdv : col.defaultValue = none) :
    Supa.renderColumn col = .ok
      ((if Supa.strLower ty = "integer" ∨ Supa.strLower ty = "int" then
          "    \"" ++ n ++ "\" SERIAL PRIMARY KEY"
        else "    \"" ++ n ++ "\" BIGSERIAL PRIMARY KEY") ++
        (if col.isPrimaryKey = false ∧ col.isNullable = false then
          " NOT NULL" else "")) := by
  have hrc : Supa.renderColumn col = .ok (Supa.renderClause n ty col) := by
    unfold Supa.renderColumn
    rw [hn, ht]
  rw [hrc]
  unfold Supa.renderClause
  rw [hdv]
  unfold Supa.renderClausePre
  rw [hid]
  rcases hpk : col.isPrimaryKey with _ | _ <;>
    rcases hnl : col.isNullable with _ | _ <;>
      rcases hfam with h | h | h | h <;>
        simp [h, hpk, hnl]

open Supa in
/-- C3 (witness): the amended identity-clause theorem applied to the
concrete column `{name: "id", type: "int", isIdentity: true,
isNullable: true}`, whose clause is exactly the shortcut. -/
theorem c3_witness :
    Supa.renderColumn
      { name := some "id", type := some "int", isIdentity := true,
        isNullable := true } = .ok "    \"id\" SERIAL PRIMARY KEY" := by
  have h := c3_amended_identity_clause
    { name := some "id", type := some "int", isIdentity := true,
      isNullable := true } "id" "int" rfl rfl rfl
    (Or.inr (Or.inl (by decide))) rfl
  rw [h]
  decide

open Supa in
/-- C5 (counterexample): the `now()` special case is matched
case-SENSITIVELY (`default_val == "now()"`), so the present default
`"NOW()"` is emitted as the quoted string literal `DEFAULT 'NOW()'`,
not as a current-timestamp function call; moreover a present-but-empty
string default is falsy under the `if col.get("defaultValue"):` guard
and produces no default clause at all. -/
theorem c5_counterexample :
    Supa.renderColumn
      { name := some "c", type := some "text", isNullable := true,
        defaultValue := some (.dstr "NOW()") } =
      .ok "    \"c\" TEXT DEFAULT 'NOW()'" ∧
    Supa.occursIn " DEFAULT NOW()".data
      "    \"c\" TEXT DEFAULT 'NOW()'".data = false ∧
    Supa.renderColumn
      { name := some "c", type := some "text", isNullable := true,
        defaultValue := some (.dstr "") } = .ok "    \"c\" TEXT" ∧
    Supa.occursIn " DEFAULT".data "    \"c\" TEXT".data = false := by
  refine ⟨by decide, by decide, by decide, by decide⟩

open Supa in
/-- C5 (amended): a present AND truthy (non-empty / non-zero)
`defaultValue` appends a default clause to the constraint part: the
exact literal `"now()"` (case-sensitively) yields `DEFAULT NOW()`; any
other string that is not all digits is emitted as a quoted string
literal; an all-digit string or a number is emitted bare.  A present but
falsy default (empty string, zero) behaves exactly as an absent one. -/
theorem c5_amended_default_clause (col : Supa.ColumnSpec) (n ty : String)
    (dv : Supa.DefaultVal) (hn : col.name = some n) (ht : col.type = some ty)
    (hdv : col.defaultValue = some dv) :
    (Supa.dvTruthy dv = true →
      Supa.renderColumn col =
        .ok (Supa.renderClausePre n ty col ++ Supa.renderDefault dv)) ∧
    (Supa.dvTruthy dv = false →
      Supa.renderColumn col =
        Supa.renderColumn { col with defaultValue := none }) ∧
    Supa.renderDefault (.dstr "now()") = " DEFAULT NOW()" ∧
    (∀ s, s ≠ "now()" → Supa.pyIsdigit s.data = false →
      Supa.renderDefault (.dstr s) = " DEFAULT '" ++ s ++ "'") ∧
    (∀ s, s ≠ "now()" → Supa.pyIsdigit s.data = true →
      Supa.renderDefault (.dstr s) = " DEFAULT " ++ s) ∧
    (∀ z : ℤ, Supa.renderDefault (.dint z) = " DEFAULT " ++ toString z) := by
  have hrc : Supa.renderColumn col = .ok (Supa.renderClause n ty col) := by
    unfold Supa.renderColumn
    rw [hn, ht]
  have hrc' : Supa.renderColumn { col with defaultValue := none } =
      .ok (Supa.renderClause n ty { col with defaultValue := none }) := by
    unfold Supa.renderColumn
    show (match col.name with
      | none => Except.error "name"
      | some n => match col.type with
        | none => Except.error "type"
        | some ty => Except.ok (Supa.renderClause n ty _)) = _
    rw [hn, ht]
  refine ⟨fun htr => ?_, fun htr => ?_, rfl, fun s h1 h2 => ?_,
    fun s h1 h2 => ?_, fun z => rfl⟩
  · rw [hrc]
    unfold Supa.renderClause
    rw [hdv]
    dsimp only
    rw [if_pos htr]
  · rw [hrc, hrc']
    unfold Supa.renderClause
    rw [hdv]
    dsimp only
    rw [if_neg (by rw [htr]; exact Bool.false_ne_true)]
    rfl
  · unfold Supa.renderDefault
    dsimp only
    rw [if_neg h1, if_pos (by rw [h2]; rfl)]
  · unfold Supa.renderDefault
    dsimp only
    rw [if_neg h1, if_neg (by rw [h2]; exact fun hc => Bool.noConfusion hc)]

open Supa in
/-- C5 (witness): the amended default-clause theorem applied to the
concrete column `{name: "st", type: "text", isNullable: true,
defaultValue: "pending"}`. -/
theorem c5_witness :
    Supa.renderColumn
      { name := some "st", type := some "text", isNullable := true,
        defaultValue := some (.dstr "pending") } =
      .ok "    \"st\" TEXT DEFAULT 'pending'" := by
  have h := (c5_amended_default_clause
    { name := some "st", type := some "text", isNullable := true,
      defaultValue := some (.dstr "pending") } "st" "text" (.dstr "pending")
    rfl rfl rfl).1 (by decide)
  rw [h]
  decide

/-- Splitting the closing `"\n);"` of the generated statement. -/
theorem Supa.append_close_paren (x : String) :
    x ++ "\n);" = (x ++ "\n") ++ ");" := by
  have h : ("\n);" : String) = "\n" ++ ");" := by decide
  rw [String.append_assoc, ← h]

open Supa in
/-- C7: on a non-empty column list whose columns all carry `name` and
`type`, the generated statement is `CREATE TABLE <qualified name> (\n`
followed by exactly one clause per column, in input order, joined by
`",\n"`, and terminated by `");"`; the schema qualifier is dropped for
the default `public` schema. -/
theorem c7_create_table_shape (t s : String) (cols : List Supa.ColumnSpec)
    (hne : cols ≠ [])
    (h : ∀ c ∈ cols, c.name ≠ none ∧ c.type ≠ none) :
    ∃ clauses : List String,
      clauses.length = cols.length ∧
      List.Forall₂ (fun c cl => Supa.renderColumn c = .ok cl) cols clauses ∧
      Supa.buildCreateTable t s cols =
        .ok ("CREATE TABLE " ++
          (if s ≠ "public" then "\"" ++ s ++ "\".\"" ++ t ++ "\""
           else "\"" ++ t ++ "\"") ++
          " (\n" ++ String.intercalate ",\n" clauses ++ "\n);") ∧
      ∃ body, Supa.buildCreateTable t s cols = .ok (body ++ ");") := by
  refine ⟨cols.map Supa.clauseOf, List.length_map cols Supa.clauseOf, ?_, ?_, ?_⟩
  · clear hne
    induction cols with
    | nil => exact List.Forall₂.nil
    | cons c cols ih =>
      exact List.Forall₂.cons
        (Supa.renderColumn_eq_clauseOf (h c (List.mem_cons_self c cols)).1
          (h c (List.mem_cons_self c cols)).2)
        (ih (fun c hc => h c (List.mem_cons_of_mem _ hc)))
  · exact Supa.buildCreateTable_eq t s cols h
  · refine ⟨"CREATE TABLE " ++
      (if s ≠ "public" then "\"" ++ s ++ "\".\"" ++ t ++ "\""
       else "\"" ++ t ++ "\"") ++
      " (\n" ++ String.intercalate ",\n" (cols.map Supa.clauseOf) ++ "\n", ?_⟩
    rw [Supa.buildCreateTable_eq t s cols h, Supa.append_close_paren]

open Supa in
/-- C7 (witness): the shape theorem applied to a concrete two-column
table in the `public` schema. -/
theorem c7_witness :
    ∃ clauses : List String,
      clauses.length = ([
        { name := some "id", type := some "bigint", isPrimaryKey := true,
          isIdentity := true },
        { name := some "name", type := some "text" }] :
          List Supa.ColumnSpec).length ∧
      List.Forall₂ (fun c cl => Supa.renderColumn c = .ok cl)
        [{ name := some "id", type := some "bigint", isPrimaryKey := true,
           isIdentity := true },
         { name := some "name", type := some "text" }] clauses ∧
      Supa.buildCreateTable "products" "public"
        [{ name := some "id", type := some "bigint", isPrimaryKey := true,
           isIdentity := true },
         { name := some "name", type := some "text" }] =
        .ok ("CREATE TABLE " ++
          (if "public" ≠ "public" then
            "\"" ++ "public" ++ "\".\"" ++ "products" ++ "\""
           else "\"" ++ "products" ++ "\"") ++
          " (\n" ++ String.intercalate ",\n" clauses ++ "\n);") ∧
      ∃ body, Supa.buildCreateTable "products" "public"
        [{ name := some "id", type := some "bigint", isPrimaryKey := true,
           isIdentity := true },
         { name := some "name", type := some "text" }] = .ok (body ++ ");") :=
  c7_create_table_shape "products" "public"
    [{ name := some "id", type := some "bigint", isPrimaryKey := true,
       isIdentity := true },
     { name := some "name", type := some "text" }]
    (by decide) (by decide)

open Supa in
/-- C8: importing `N` rows with batch size `B > 0` issues exactly
`⌈N/B⌉` insert calls; every call except the last carries `B` rows and
the last carries `N mod B` rows (or `B` when `B` divides `N`); the
batches concatenate back to the input and the importer returns `N`.
The same holds for the CSV importer whenever its per-field coercion
succeeds, and 2500 rows with `batch_size = 1000` give exactly the three
calls of sizes 1000, 1000, 500. -/
theorem c8_batching (α : Type) (data : List α) (B : ℕ) (hB : 0 < B) :
    (Supa.import_from_json_model data B).1 = data.length ∧
    (Supa.import_from_json_model data B).2.length = (data.length + B - 1) / B ∧
    (∀ c ∈ (Supa.import_from_json_model data B).2.dropLast, c.length = B) ∧
    (∀ c, (Supa.import_from_json_model data B).2.getLast? = some c →
      c.length = if data.length % B = 0 then B else data.length % B) ∧
    (Supa.import_from_json_model data B).2.flatten = data ∧
    (∀ (rows : List (List (String × String))) (total : ℕ)
      (calls : List (List (List (String × Supa.PyVal)))),
      Supa.import_from_csv_model rows B = .ok (total, calls) →
      total = rows.length ∧ calls.length = (rows.length + B - 1) / B) ∧
    (Supa.import_from_json_model (List.replicate 2500 (0 : ℕ)) 1000).2.map
      List.length = [1000, 1000, 500] := by
  have hjson : ∀ (l : List α),
      (Supa.import_from_json_model l B).1 = l.length ∧
      (Supa.import_from_json_model l B).2 = Supa.chunks B l := by
    intro l
    by_cases hl : l.isEmpty
    · have : l = [] := List.isEmpty_iff.mp hl
      subst this
      exact ⟨rfl, rfl⟩
    · constructor
      · show (if l.isEmpty then ((0 : ℕ), ([] : List (List α)))
          else (((Supa.chunks B l).map List.length).sum,
            Supa.chunks B l)).1 = l.length
        rw [if_neg hl]
        show ((Supa.chunks B l).map List.length).sum = l.length
        rw [← List.length_flatten, Supa.chunks_flatten B hB]
      · show (if l.isEmpty then ((0 : ℕ), ([] : List (List α)))
          else (((Supa.chunks B l).map List.length).sum,
            Supa.chunks B l)).2 = Supa.chunks B l
        rw [if_neg hl]
  refine ⟨(hjson data).1, ?_, ?_, ?_, ?_, ?_, ?_⟩
  · rw [(hjson data).2]
    exact Supa.chunks_length B hB data
  · rw [(hjson data).2]
    exact Supa.chunks_sizes B hB data
  · rw [(hjson data).2]
    exact fun c hc => Supa.chunks_last B hB data c hc
  · rw [(hjson data).2]
    exact Supa.chunks_flatten B hB data
  · intro rows total calls h
    unfold Supa.import_from_csv_model at h
    by_cases hre : rows.isEmpty
    · have hrnil : rows = [] := List.isEmpty_iff.mp hre
      subst hrnil
      rw [if_pos hre] at h
      simp only [pure, Except.pure, Except.ok.injEq, Prod.mk.injEq] at h
      refine ⟨h.1.symm, ?_⟩
      rw [← h.2]
      simp only [List.length_nil]
      exact (Nat.div_eq_of_lt (by omega)).symm
    · rw [if_neg hre] at h
      rcases hm : (Supa.chunks B rows).mapM
          (fun batch => batch.mapM Supa.convertRow) with e | calls'
      · rw [hm] at h
        exact absurd h (by simp [Bind.bind, Except.bind])
      · rw [hm] at h
        simp only [Bind.bind, Except.bind, pure, Except.pure,
          Except.ok.injEq, Prod.mk.injEq] at h
        obtain ⟨htot, hcall⟩ := h
        subst hcall
        have hfa := Supa.mapM_ok_forall₂ _ _ _ hm
        have hmap : calls'.map List.length =
            (Supa.chunks B rows).map List.length :=
          Supa.Forall₂_map_length (f := List.length) (g := List.length)
            (fun b cb hb =>
              ((Supa.mapM_ok_forall₂ Supa.convertRow b cb hb).length_eq).symm)
            hfa
        constructor
        · rw [← htot, hmap, ← List.length_flatten, Supa.chunks_flatten B hB]
        · rw [← Supa.chunks_length B hB rows]
          exact hfa.length_eq.symm
  · have e1 : Supa.chunks 1000 (List.replicate 2500 (0 : ℕ)) =
        List.replicate 1000 0 :: Supa.chunks 1000 (List.replicate 1500 0) := by
      have h := Supa.chunks_replicate_ge (x := (0 : ℕ)) (B := 1000) (n := 2500)
        (by norm_num) (by norm_num)
      have hsub : (2500 : ℕ) - 1000 = 1500 := by norm_num
      rw [hsub] at h
      exact h
    have e2 : Supa.chunks 1000 (List.replicate 1500 (0 : ℕ)) =
        List.replicate 1000 0 :: Supa.chunks 1000 (List.replicate 500 0) := by
      have h := Supa.chunks_replicate_ge (x := (0 : ℕ)) (B := 1000) (n := 1500)
        (by norm_num) (by norm_num)
      have hsub : (1500 : ℕ) - 1000 = 500 := by norm_num
      rw [hsub] at h
      exact h
    have e3 : Supa.chunks 1000 (List.replicate 500 (0 : ℕ)) =
        [List.replicate 500 0] := by
      exact Supa.chunks_replicate_le (by norm_num) (by norm_num) (by norm_num)
    have hne : ¬ (List.replicate 2500 (0 : ℕ)).isEmpty = true := by
      rw [List.isEmpty_iff]
      intro hnil
      have hlen := congrArg List.length hnil
      rw [List.length_replicate] at hlen
      exact absurd hlen (by norm_num)
    have hsnd : (Supa.import_from_json_model
        (List.replicate 2500 (0 : ℕ)) 1000).2 =
        Supa.chunks 1000 (List.replicate 2500 0) := by
      unfold Supa.import_from_json_model
      rw [if_neg hne]
    rw [hsnd, e1, e2, e3, List.map_cons, List.map_cons, List.map_cons,
      List.map_nil, List.length_replicate, List.length_replicate]

open Supa in
/-- C8 (witness): the batching theorem applied to 5 rows with batch size
2 (total 5, three calls) and the spec's 2500-row example. -/
theorem c8_witness :
    (Supa.import_from_json_model [0, 1, 2, 3, 4] 2).1 = 5 ∧
    (Supa.import_from_json_model [0, 1, 2, 3, 4] 2).2.length = 3 ∧
    (Supa.import_from_json_model (List.replicate 2500 (0 : ℕ)) 1000).2.map
      List.length = [1000, 1000, 500] := by
  have h := c8_batching ℕ [0, 1, 2, 3, 4] 2 (by norm_num)
  refine ⟨h.1, ?_, h.2.2.2.2.2.2⟩
  have h2 := h.2.1
  norm_num at h2
  exact h2

open Supa in
/-- C6 (counterexample): the encoding does not always carry
`select = columns` — a filter literally named `select` overwrites it; a
filter named `order` is overwritten by an explicit `order` argument; and
an `order` argument that is present but empty is dropped entirely
(Python truthiness), contradicting "includes order verbatim when
present". -/
theorem c6_counterexample :
    (Supa.encodeQuery
      { columns := "*", filters := [("select", "id")] }).lookup "select" =
      some "id" ∧
    ("id" : String) ≠ "*" ∧
    (Supa.encodeQuery
      { columns := "*", filters := [("order", "name.asc")],
        order := some "created_at.desc" }).lookup "order" =
      some "created_at.desc" ∧
    ("created_at.desc" : String) ≠ "name.asc" ∧
    Supa.encodeQuery { columns := "*", order := some "" } =
      [("select", "*")] := by
  refine ⟨by decide, by decide, by decide, by decide, by decide⟩

open Supa in
/-- C6 (amended): the encoding includes `select = columns` provided no
filter is named `select`; copies each filter entry verbatim provided its
name is none of `order`/`limit`/`offset` (which the explicit arguments
would overwrite); includes `order` verbatim when present AND non-empty;
includes `limit`/`offset` as decimal strings when present and non-zero;
and the spec's concrete example encodes to exactly
`select, price, order, limit` with the stated values. -/
theorem c6_amended_encode_query (q : Supa.QuerySpec) :
    ((∀ kv ∈ q.filters, kv.1 ≠ "select") →
      (Supa.encodeQuery q).lookup "select" = some q.columns) ∧
    ((q.filters.map Prod.fst).Nodup → ∀ k v, (k, v) ∈ q.filters →
      k ≠ "order" → k ≠ "limit" → k ≠ "offset" →
      (Supa.encodeQuery q).lookup k = some v) ∧
    (∀ o, q.order = some o → o ≠ "" →
      (Supa.encodeQuery q).lookup "order" = some o) ∧
    (∀ n : ℤ, q.limit = some n → n ≠ 0 →
      (Supa.encodeQuery q).lookup "limit" = some (toString n)) ∧
    (∀ n : ℤ, q.offset = some n → n ≠ 0 →
      (Supa.encodeQuery q).lookup "offset" = some (toString n)) ∧
    Supa.encodeQuery
      { columns := "*", filters := [("price", "gte.100")],
        order := some "created_at.desc", limit := some 10 } =
      [("select", "*"), ("price", "gte.100"), ("order", "created_at.desc"),
       ("limit", "10")] := by
  refine ⟨fun hsel => ?_, fun hnd k v hmem h1 h2 h3 => ?_,
    fun o ho hne' => ?_, fun n hl hn => ?_, fun n hofs hn => ?_, by decide⟩
  · rw [Supa.encodeQuery_lookup_other q "select" (by decide) (by decide)
      (by decide),
      Supa.lookup_foldl_dictSet_not_mem q.filters _ "select" hsel]
    exact Supa.lookup_cons_eq rfl
  · rw [Supa.encodeQuery_lookup_other q k h1 h2 h3]
    exact Supa.lookup_foldl_dictSet_mem q.filters _ k v hnd hmem
  · unfold Supa.encodeQuery
    rw [Supa.lookup_addIntParam_ne _ _ _ (by decide),
      Supa.lookup_addIntParam_ne _ _ _ (by decide), ho,
      Supa.lookup_addOrder_some _ hne']
  · unfold Supa.encodeQuery
    rw [Supa.lookup_addIntParam_ne _ _ _ (by decide), hl,
      Supa.lookup_addIntParam_some _ _ hn]
  · unfold Supa.encodeQuery
    rw [hofs, Supa.lookup_addIntParam_some _ _ hn]

open Supa in
/-- C6 (witness): the amended encoder theorem applied at the spec's
concrete example query. -/
theorem c6_witness :
    (Supa.encodeQuery
      { columns := "*", filters := [("price", "gte.100")],
        order := some "created_at.desc", limit := some 10 }).lookup "select" =
      some "*" ∧
    (Supa.encodeQuery
      { columns := "*", filters := [("price", "gte.100")],
        order := some "created_at.desc", limit := some 10 }).lookup "price" =
      some "gte.100" ∧
    (Supa.encodeQuery
      { columns := "*", filters := [("price", "gte.100")],
        order := some "created_at.desc", limit := some 10 }).lookup "order" =
      some "created_at.desc" ∧
    (Supa.encodeQuery
      { columns := "*", filters := [("price", "gte.100")],
        order := some "created_at.desc", limit := some 10 }).lookup "limit" =
      some "10" := by
  refine ⟨(c6_amended_encode_query _).1 (by decide),
    (c6_amended_encode_query _).2.1 (by decide) "price" "gte.100" (by decide)
      (by decide) (by decide) (by decide),
    (c6_amended_encode_query _).2.2.1 "created_at.desc" rfl (by decide), ?_⟩
  have h := (c6_amended_encode_query
    { columns := "*", filters := [("price", "gte.100")],
      order := some "created_at.desc", limit := some 10 }).2.2.2.1 10 rfl
    (by decide)
  exact h.trans (by decide)

open Supa in
/-- C10: filter entries land between the `select` key and the
`order`/`limit`/`offset` keys, with Python-dict overwrite semantics: a
filter literally named `select` silently replaces the requested columns
parameter, and a filter named `order`, `limit` or `offset` is silently
overwritten by the corresponding explicit argument when that argument is
given (and truthy), so one of the two values is lost from the request. -/
theorem c10_filter_key_collisions (q : Supa.QuerySpec) :
    ((q.filters.map Prod.fst).Nodup → ∀ v, ("select", v) ∈ q.filters →
      (Supa.encodeQuery q).lookup "select" = some v ∧
      (v ≠ q.columns →
        (Supa.encodeQuery q).lookup "select" ≠ some q.columns)) ∧
    (∀ o, q.order = some o → o ≠ "" → ∀ v, ("order", v) ∈ q.filters →
      (Supa.encodeQuery q).lookup "order" = some o ∧
      (v ≠ o → (Supa.encodeQuery q).lookup "order" ≠ some v)) ∧
    (∀ n : ℤ, q.limit = some n → n ≠ 0 → ∀ v, ("limit", v) ∈ q.filters →
      (Supa.encodeQuery q).lookup "limit" = some (toString n) ∧
      (v ≠ toString n → (Supa.encodeQuery q).lookup "limit" ≠ some v)) ∧
    (∀ n : ℤ, q.offset = some n → n ≠ 0 → ∀ v, ("offset", v) ∈ q.filters →
      (Supa.encodeQuery q).lookup "offset" = some (toString n) ∧
      (v ≠ toString n → (Supa.encodeQuery q).lookup "offset" ≠ some v)) := by
  have hord : ∀ o, q.order = some o → o ≠ "" →
      (Supa.encodeQuery q).lookup "order" = some o := by
    intro o ho hne'
    unfold Supa.encodeQuery
    rw [Supa.lookup_addIntParam_ne _ _ _ (by decide),
      Supa.lookup_addIntParam_ne _ _ _ (by decide), ho,
      Supa.lookup_addOrder_some _ hne']
  have hlim : ∀ n : ℤ, q.limit = some n → n ≠ 0 →
      (Supa.encodeQuery q).lookup "limit" = some (toString n) := by
    intro n hl hn
    unfold Supa.encodeQuery
    rw [Supa.lookup_addIntParam_ne _ _ _ (by decide), hl,
      Supa.lookup_addIntParam_some _ _ hn]
  have hoff : ∀ n : ℤ, q.offset = some n → n ≠ 0 →
      (Supa.encodeQuery q).lookup "offset" = some (toString n) := by
    intro n hofs hn
    unfold Supa.encodeQuery
    rw [hofs, Supa.lookup_addIntParam_some _ _ hn]
  refine ⟨fun hnd v hmem => ?_, fun o ho hne' v _ => ?_,
    fun n hl hn v _ => ?_, fun n hofs hn v _ => ?_⟩
  · have hsel : (Supa.encodeQuery q).lookup "select" = some v := by
      rw [Supa.encodeQuery_lookup_other q "select" (by decide) (by decide)
        (by decide)]
      exact Supa.lookup_foldl_dictSet_mem q.filters _ "select" v hnd hmem
    exact ⟨hsel, fun hv hcon =>
      hv (Option.some.inj (hsel.symm.trans hcon))⟩
  · have h := hord o ho hne'
    exact ⟨h, fun hv hcon =>
      hv (Option.some.inj (hcon.symm.trans h))⟩
  · have h := hlim n hl hn
    exact ⟨h, fun hv hcon =>
      hv (Option.some.inj (hcon.symm.trans h))⟩
  · have h := hoff n hofs hn
    exact ⟨h, fun hv hcon =>
      hv (Option.some.inj (hcon.symm.trans h))⟩

open Supa in
/-- C10 (witness): the collision theorem applied to a query whose
filters are named `select` and `order` while `order` is also given
explicitly. -/
theorem c10_witness :
    (Supa.encodeQuery
      { columns := "*", filters := [("select", "id"), ("order", "name.asc")],
        order := some "created_at.desc" }).lookup "select" = some "id" ∧
    (Supa.encodeQuery
      { columns := "*", filters := [("select", "id"), ("order", "name.asc")],
        order := some "created_at.desc" }).lookup "order" =
      some "created_at.desc" := by
  refine ⟨((c10_filter_key_collisions _).1 (by decide) "id" (by decide)).1,
    ((c10_filter_key_collisions _).2.1 "created_at.desc" rfl (by decide)
      "name.asc" (by decide)).1⟩

open Supa in
/-- C1 (witness): the amended no-validation theorem applied at a
concrete non-empty filters mapping. -/
theorem c1_witness :
    Supa.update_outcome [("id", "eq.1")] = .request [("id", "eq.1")] ∧
    Supa.delete_outcome [] = .request [] :=
  ⟨(c1_amended_no_validation.1 [("id", "eq.1")]).trans (by decide),
    c1_amended_no_validation.2.2.2.2.2⟩

open Supa in
/-- C4 (witness): the amended no-validation theorem applied at a
concrete column list whose first column lacks a name. -/
theorem c4_witness :
    Supa.buildCreateTable "t" "s" [{ name := none }] = .error "name" :=
  c4_amended_no_validation.1 "t" "s" []
